import Mathlib

/-!
Verification of the CyberTapestry deterministic pattern engine.

The development shallowly embeds the JavaScript sources (src/js/utils.js,
src/js/patterns.js, src/js/app.js, src/js/constants.js) into Lean:

* JS 32-bit integer operations are modelled on Nat with explicit reduction
  modulo 2^32; Math.imul(a, b) produces the bit pattern (a * b) % 2^32,
  x >>> k is Nat.shiftRight on the unsigned pattern, and x ^ y / x & y act
  on bit patterns, which XOR/AND on the unsigned representatives compute
  exactly.
* The JS remainder operator a % b on integers truncates toward zero, which
  is Int.tmod; Math.floor(a / b) on an exact quotient is Int.fdiv; (a / b) | 0
  truncates toward zero, which is Int.tdiv.  All divisors appearing in the
  embedded pattern code are small positive integers (block sizes and
  derived cell sizes), for which IEEE double division of the integer
  operands that occur is either exact or at distance at least 1/d from the
  nearest integer, so float floor/trunc agree with the exact Int operations.
* Strings are List Char; the regex-based cleaning in normalizeHex is
  embedded character by character.
-/

namespace CyberTapestry

/-- 2^32, the modulus of all JS 32-bit integer operations. -/
def M32 : Nat := 4294967296

/-- Unsigned 32-bit bit pattern of an integer (the JS ToUint32 coercion). -/
def toU32 (n : Int) : Nat := (n.emod 4294967296).toNat

/-- Signed reading of an unsigned 32-bit pattern (the JS ToInt32 coercion). -/
def s32 (u : Nat) : Int := if u < 2147483648 then (u : Int) else (u : Int) - 4294967296

/-- JS 32-bit XOR of two integers: both operands are coerced to their
32-bit patterns, XORed, and read back as a signed 32-bit integer. -/
def xor32 (a b : Int) : Int := s32 (toU32 a ^^^ toU32 b)

/-- The floor-mod helper from src/js/patterns.js line 68:
mod = (n, m) => ((n % m) + m) % m, with JS % being truncating remainder. -/
def jsFloorMod (n m : Int) : Int := ((n.tmod m) + m).tmod m

/-- Murmur3-style finalization mix, from src/js/utils.js fmix32.
The leading reduction modulo 2^32 models the ToUint32/ToInt32 coercions JS
applies to the incoming number before the first shift/xor. -/
def fmix32 (a0 : Nat) : Nat :=
  let a1 := a0 % M32
  let a2 := a1 ^^^ (a1 >>> 16)
  let a3 := (a2 * 0x85ebca6b) % M32
  let a4 := a3 ^^^ (a3 >>> 13)
  let a5 := (a4 * 0xc2b2ae35) % M32
  a5 ^^^ (a5 >>> 16)

/-- 2D coordinate hash, from src/js/utils.js hash2D.  Coordinates in every
call site are far inside the int32 range, so the (x | 0) coercion is the
identity and Math.imul contributes the pattern ((x + c1) * c2) % 2^32. -/
def hash2D (seed : Nat) (x y : Int) : Nat :=
  let a := toU32 ((x + 0x9e3779b9) * 0x85ebca6b)
  let n := (seed + a) % M32
  let b := toU32 ((y + 0x9e3779b9) * 0xc2b2ae35)
  fmix32 (n ^^^ b)

/-- Test for a hex digit character 0-9, a-f or A-F (the character class
[0-9a-fA-F] of the cleaning regex in normalizeHex). -/
def isHexDigitJS (c : Char) : Bool :=
  (48 ≤ c.toNat && c.toNat ≤ 57) || (97 ≤ c.toNat && c.toNat ≤ 102) ||
    (65 ≤ c.toNat && c.toNat ≤ 70)

/-- ASCII lowercasing of one character (String.prototype.toLowerCase on the
characters that survive the hex cleaning). -/
def jsToLower (c : Char) : Char :=
  if 65 ≤ c.toNat && c.toNat ≤ 90 then Char.ofNat (c.toNat + 32) else c

/-- Numeric value of a hex digit character, as parseInt(-, 16) assigns it.
Non-hex characters never reach this function in the embedded code paths. -/
def hexDigitVal (c : Char) : Nat :=
  if 48 ≤ c.toNat && c.toNat ≤ 57 then c.toNat - 48
  else if 97 ≤ c.toNat && c.toNat ≤ 102 then c.toNat - 87
  else if 65 ≤ c.toNat && c.toNat ≤ 70 then c.toNat - 55
  else 0

/-- Strip one leading 0x or 0X, the replace(/^0x/i, "") step of normalizeHex. -/
def stripHex0x (s : List Char) : List Char :=
  match s with
  | c0 :: c1 :: rest => if c0 = '0' ∧ (c1 = 'x' ∨ c1 = 'X') then rest else s
  | _ => s

/-- The cleaning pipeline of normalizeHex: strip a 0x prefix, drop every
non-hex character, lowercase the rest. -/
def cleanHex (s : List Char) : List Char :=
  ((stripHex0x s).filter isHexDigitJS).map jsToLower

/-- FNV-1a 32-bit prime, src/js/utils.js. -/
def FNV_PRIME : Nat := 0x01000193

/-- One step of the 4-lane compressor loop body (src/js/utils.js
compressHexToWords lines 28-32): FNV-1a step on lane, then cross-lane stir
into lane (lane+1) & 3.  The lane state is the 4-tuple (h0, h1, h2, h3);
lane indices ≥ 4 never occur (the counter is reduced with & 3). -/
def stepPair (lane : Nat) (b : Nat) (h : Nat × Nat × Nat × Nat) :
    Nat × Nat × Nat × Nat :=
  match lane, h with
  | 0, (h0, h1, h2, h3) =>
    let v := ((h0 ^^^ b) * FNV_PRIME) % M32
    let stir := (v >>> 17) ^^^ ((v * 0x9e3779b1) % M32)
    (v, h1 ^^^ stir, h2, h3)
  | 1, (h0, h1, h2, h3) =>
    let v := ((h1 ^^^ b) * FNV_PRIME) % M32
    let stir := (v >>> 17) ^^^ ((v * 0x9e3779b1) % M32)
    (h0, v, h2 ^^^ stir, h3)
  | 2, (h0, h1, h2, h3) =>
    let v := ((h2 ^^^ b) * FNV_PRIME) % M32
    let stir := (v >>> 17) ^^^ ((v * 0x9e3779b1) % M32)
    (h0, h1, v, h3 ^^^ stir)
  | 3, (h0, h1, h2, h3) =>
    let v := ((h3 ^^^ b) * FNV_PRIME) % M32
    let stir := (v >>> 17) ^^^ ((v * 0x9e3779b1) % M32)
    (h0 ^^^ stir, h1, h2, v)
  | _, h => h

/-- The byte-scanning loop of compressHexToWords: walk the hex characters
two at a time, lane counter advancing as lane = (lane + 1) & 3; an odd
final character c is parsed as "0" + c, that is, as the byte value of c. -/
def compressCore (lane : Nat) (h : Nat × Nat × Nat × Nat) :
    List Char → Nat × Nat × Nat × Nat
  | [] => h
  | [c] => stepPair lane (hexDigitVal c) h
  | c1 :: c2 :: rest =>
    compressCore ((lane + 1) &&& 3) (stepPair lane (16 * hexDigitVal c1 + hexDigitVal c2) h) rest

/-- Lane lookup h[i] for an index already reduced below 4. -/
def laneGet (h : Nat × Nat × Nat × Nat) (i : Nat) : Nat :=
  match i with
  | 0 => h.1
  | 1 => h.2.1
  | 2 => h.2.2.1
  | _ => h.2.2.2

/-- Streaming 4-lane compressor, src/js/utils.js compressHexToWords:
4 salted FNV lanes with cross-lane stirring, fmix32 finalization of each
lane, then outWords output words derived by cycling the lanes. -/
def compressHexToWords (hex : List Char) (outWords : Nat) : List Nat :=
  let lanes : Nat × Nat × Nat × Nat :=
    (0x811c9dc5 ^^^ 0x01, 0x811c9dc5 ^^^ 0x02, 0x811c9dc5 ^^^ 0x03, 0x811c9dc5 ^^^ 0x04)
  let h := compressCore 0 lanes hex
  let hf := (fmix32 h.1, fmix32 h.2.1, fmix32 h.2.2.1, fmix32 h.2.2.2)
  (List.range outWords).map fun i =>
    fmix32 (laneGet hf (i &&& 3) + ((i + 1) * 0x9e3779b9) % M32)

/-- Lowercase hex digit character of a value below 16 (Number.toString(16)). -/
def hexDigitChar (d : Nat) : Char :=
  if d < 10 then Char.ofNat (48 + d) else Char.ofNat (87 + d)

/-- Digit accumulator for the minimal hex representation of a Nat. -/
def toHexAux (w : Nat) (acc : List Char) : List Char :=
  if h : w = 0 then acc else toHexAux (w / 16) (hexDigitChar (w % 16) :: acc)
  decreasing_by exact Nat.div_lt_self (Nat.pos_of_ne_zero h) (by norm_num)

/-- Minimal-length lowercase hex string of a Nat, as w.toString(16). -/
def toHexMin (w : Nat) : List Char :=
  if w = 0 then ['0'] else toHexAux w []

/-- padStart(8, "0"): left-pad with zeros up to length 8. -/
def padStart8 (l : List Char) : List Char :=
  List.replicate (8 - l.length) '0' ++ l

/-- Serialize compressor words as 8-hex-digit zero-padded strings joined
together (normalizeHex line 72). -/
def wordsToHex (ws : List Nat) : List Char :=
  (ws.map fun w => padStart8 (toHexMin w)).flatten

/-- Normalization ceiling, src/js/utils.js MAX_HEX_NORM. -/
def MAX_HEX_NORM : Nat := 128

/-- Compressed word count, src/js/utils.js COMPRESS_TO_WORDS. -/
def COMPRESS_TO_WORDS : Nat := 8

/-- src/js/utils.js normalizeHex: clean the input; compress if the cleaned
hex exceeds the ceiling.  The falsy-input check (!s) returns "" for the
empty string. -/
def normalizeHex (s : List Char) : List Char :=
  if s = [] then []
  else if cleanHex s = [] then []
  else if MAX_HEX_NORM < (cleanHex s).length then
    wordsToHex (compressHexToWords (cleanHex s) COMPRESS_TO_WORDS)
  else cleanHex s

/-- The legacy normalizer (utils.js of the pre-compressor revision): clean
only, never compress. -/
def normalizeHexLegacy (s : List Char) : List Char :=
  if s = [] then [] else cleanHex s

/-- The FNV-1a fold of hexToSeed32 over an even-length character list; the
one-character case mirrors parseInt on a final 1-character slice and is
unreachable after the odd-length padding. -/
def fnvLoop (h : Nat) : List Char → Nat
  | [] => h
  | [c] => ((h ^^^ hexDigitVal c) * FNV_PRIME) % M32
  | c1 :: c2 :: rest =>
    fnvLoop (((h ^^^ (16 * hexDigitVal c1 + hexDigitVal c2)) * FNV_PRIME) % M32) rest

/-- src/js/utils.js hexToSeed32: FNV-1a over byte pairs, empty input gives
the offset basis, odd-length input is left-padded with one 0 nibble. -/
def hexToSeed32 (hex : List Char) : Nat :=
  if hex = [] then 0x811c9dc5
  else fnvLoop 0x811c9dc5 (if hex.length % 2 = 1 then '0' :: hex else hex)

/-- Byte-pair list of a hex string, as the spec describes the scan: two
characters form one byte, an odd final character c is treated as "0" + c. -/
def specBytes : List Char → List Nat
  | [] => []
  | [c] => [hexDigitVal c]
  | c1 :: c2 :: rest => (16 * hexDigitVal c1 + hexDigitVal c2) :: specBytes rest

/-- Reference FNV-1a step from the spec: h = (h XOR byte), then
h = h * 0x01000193 mod 2^32. -/
def specFnvStep (h b : Nat) : Nat := ((h ^^^ b) * 0x01000193) % M32

/-- Reference FNV-1a seed derivation, following the spec wording: empty hex
gives the offset basis, odd-length hex is left-padded with one 0, and the
byte pairs are folded left to right with specFnvStep. -/
def specFnvSeed (hex : List Char) : Nat :=
  if hex = [] then 0x811c9dc5
  else (specBytes (if hex.length % 2 = 1 then '0' :: hex else hex)).foldl specFnvStep 0x811c9dc5

/-- Reference compressor step from the spec: for pair index i, lane i mod 4
gets the FNV-1a step, then lane (lane + 1) mod 4 is XORed with
(h[lane] >> 17) XOR (h[lane] * 0x9e3779b1 mod 2^32). -/
def specStep (lane : Nat) (b : Nat) (h : Nat × Nat × Nat × Nat) :
    Nat × Nat × Nat × Nat :=
  match lane, h with
  | 0, (h0, h1, h2, h3) =>
    let v := ((h0 ^^^ b) * 0x01000193) % M32
    (v, h1 ^^^ ((v >>> 17) ^^^ ((v * 0x9e3779b1) % M32)), h2, h3)
  | 1, (h0, h1, h2, h3) =>
    let v := ((h1 ^^^ b) * 0x01000193) % M32
    (h0, v, h2 ^^^ ((v >>> 17) ^^^ ((v * 0x9e3779b1) % M32)), h3)
  | 2, (h0, h1, h2, h3) =>
    let v := ((h2 ^^^ b) * 0x01000193) % M32
    (h0, h1, v, h3 ^^^ ((v >>> 17) ^^^ ((v * 0x9e3779b1) % M32)))
  | 3, (h0, h1, h2, h3) =>
    let v := ((h3 ^^^ b) * 0x01000193) % M32
    (h0 ^^^ ((v >>> 17) ^^^ ((v * 0x9e3779b1) % M32)), h1, h2, v)
  | _, h => h

/-- Reference compressor loop from the spec, indexed by the 0-based pair
index i with lane = i mod 4. -/
def specCompressCore (i : Nat) (h : Nat × Nat × Nat × Nat) :
    List Nat → Nat × Nat × Nat × Nat
  | [] => h
  | b :: rest => specCompressCore (i + 1) (specStep (i % 4) b h) rest

/-- Reference compressor from the spec: four lanes initialized to
0x811c9dc5 XOR {1,2,3,4}, the indexed loop above, fmix finalization of
every lane, and output word i = fmix(h[i mod 4] + (i+1) * 0x9e3779b9 mod 2^32). -/
def specCompress (hex : List Char) (outWords : Nat) : List Nat :=
  let h := specCompressCore 0
    (0x811c9dc5 ^^^ 1, 0x811c9dc5 ^^^ 2, 0x811c9dc5 ^^^ 3, 0x811c9dc5 ^^^ 4)
    (specBytes hex)
  let hf := (fmix32 h.1, fmix32 h.2.1, fmix32 h.2.2.1, fmix32 h.2.2.2)
  (List.range outWords).map fun i =>
    fmix32 (laneGet hf (i % 4) + ((i + 1) * 0x9e3779b9) % M32)

/-- Fixed palette, src/js/constants.js PALETTE_BASE. -/
def PALETTE_BASE : List String := ["#FFFBDE", "#91C8E4", "#749BC2", "#4682A9"]

/-- Canvas width, src/js/constants.js. -/
def CANVAS_W : Nat := 128

/-- Canvas height, src/js/constants.js. -/
def CANVAS_H : Nat := 128

/-- Visible block sizes, src/js/constants.js BLOCK_OPTIONS. -/
def BLOCK_OPTIONS : List Nat := [1, 2, 4, 8, 16]

/-- Mode names, src/js/constants.js MODE_NAMES (32 modes). -/
def MODE_NAMES : List String :=
  ["none", "vertical", "horizontal", "quad", "diag", "anti-diag", "rot4",
   "rings", "sectors", "stripes", "checker", "diamonds", "squares", "spiral",
   "spokes", "bricks", "voronoi", "value-noise", "weave", "crosshatch",
   "rot45-checker", "kaleido8", "concentric-squares", "bullseye-bold",
   "dots-grid", "waves", "square-maze", "iso-cubes", "hex-tiles",
   "triangles", "chevron", "grid-rings"]

/-- Deterministic block size selection, src/js/app.js renderFromHex line 57:
BLOCK_OPTIONS[fmix32(seed + 0xbeef) % BLOCK_OPTIONS.length]. -/
def deriveBlockSize (seed : Nat) : Nat :=
  BLOCK_OPTIONS.getD (fmix32 (seed + 0xbeef) % BLOCK_OPTIONS.length) 0

/-- Deterministic mode selection, src/js/app.js renderFromHex line 59:
fmix32(seed + 0x1234) % MODE_NAMES.length. -/
def deriveModeIdx (seed : Nat) : Nat :=
  fmix32 (seed + 0x1234) % MODE_NAMES.length

/-- Deterministic palette rotation, src/js/app.js renderFromHex line 69:
fmix32(seed + 0x5a5a) % 4. -/
def deriveRotation (seed : Nat) : Nat :=
  fmix32 (seed + 0x5a5a) % 4

/-- The render-loop index normalization of src/js/app.js line 91:
cidx = ((cidx % palette.length) + palette.length) % palette.length,
with the JS truncating remainder. -/
def renderNormalize (cidx p : Int) : Int :=
  ((cidx.tmod p) + p).tmod p

/-- Lexicographic minimum of two coordinate pairs, the comparator
(a, b) => a[0] - b[0] || a[1] - b[1] of rot4Canonical. -/
def pairMin (a b : Int × Int) : Int × Int :=
  if a.1 < b.1 ∨ (a.1 = b.1 ∧ a.2 ≤ b.2) then a else b

/-- src/js/patterns.js rot4Canonical: the source collects the four
rotational images of (x, y), sorts them with the lexicographic comparator
and returns the first element, that is, the lexicographic minimum. -/
def rot4Canonical (x y W H : Int) : Int × Int :=
  pairMin (pairMin (pairMin (x, y) (W - 1 - y, x)) (W - 1 - x, H - 1 - y)) (y, H - 1 - x)

/-- Mode 0 (none): hash the block cell of the raw coordinates.
(x / blockSize) | 0 truncates toward zero, which is Int.tdiv. -/
def mode0 (seed blockSize : Nat) (paletteLen : Int) (_W _H x y : Int) : Int :=
  ((hash2D seed (x.tdiv blockSize) (y.tdiv blockSize) : Nat) : Int).tmod paletteLen

/-- Mode 1 (vertical mirror): fold x across the vertical center line.
The comparison x < W / 2 on integers is 2 * x < W. -/
def mode1 (seed blockSize : Nat) (paletteLen : Int) (W _H x y : Int) : Int :=
  let sx := if 2 * x < W then x else W - 1 - x
  ((hash2D seed (sx.tdiv blockSize) (y.tdiv blockSize) : Nat) : Int).tmod paletteLen

/-- Mode 2 (horizontal mirror): fold y across the horizontal center line. -/
def mode2 (seed blockSize : Nat) (paletteLen : Int) (_W H x y : Int) : Int :=
  let sy := if 2 * y < H then y else H - 1 - y
  ((hash2D seed (x.tdiv blockSize) (sy.tdiv blockSize) : Nat) : Int).tmod paletteLen

/-- Mode 3 (quad mirror): fold both coordinates. -/
def mode3 (seed blockSize : Nat) (paletteLen : Int) (W H x y : Int) : Int :=
  let sx := if 2 * x < W then x else W - 1 - x
  let sy := if 2 * y < H then y else H - 1 - y
  ((hash2D seed (sx.tdiv blockSize) (sy.tdiv blockSize) : Nat) : Int).tmod paletteLen

/-- Mode 4 (diagonal): swap coordinates below the main diagonal. -/
def mode4 (seed blockSize : Nat) (paletteLen : Int) (_W _H x y : Int) : Int :=
  let s := if y > x then (y, x) else (x, y)
  ((hash2D seed (s.1.tdiv blockSize) (s.2.tdiv blockSize) : Nat) : Int).tmod paletteLen

/-- Mode 5 (anti-diagonal): reflect across y = H - 1 - x. -/
def mode5 (seed blockSize : Nat) (paletteLen : Int) (W H x y : Int) : Int :=
  let s := if y > H - 1 - x then (H - 1 - y, W - 1 - x) else (x, y)
  ((hash2D seed (s.1.tdiv blockSize) (s.2.tdiv blockSize) : Nat) : Int).tmod paletteLen

/-- Mode 6 (4-fold rotational): hash the rot4 canonical representative. -/
def mode6 (seed blockSize : Nat) (paletteLen : Int) (W H x y : Int) : Int :=
  let s := rot4Canonical x y W H
  ((hash2D seed (s.1.tdiv blockSize) (s.2.tdiv blockSize) : Nat) : Int).tmod paletteLen

/-- Mode 9 (stripes): bx ^ (by + (seed & 3)) reduced with the floor-mod
helper; the XOR acts on signed 32-bit values. -/
def mode9 (seed blockSize : Nat) (paletteLen : Int) (_W _H x y : Int) : Int :=
  let bx := x.tdiv blockSize
  let by_ := y.tdiv blockSize
  jsFloorMod (xor32 bx (by_ + (seed % 4 : Nat))) paletteLen

/-- Mode 10 (checker hashed): parity-selected unsigned shift of the cell
hash, reduced with the floor-mod helper. -/
def mode10 (seed blockSize : Nat) (paletteLen : Int) (_W _H x y : Int) : Int :=
  let bx := x.tdiv blockSize
  let by_ := y.tdiv blockSize
  let parity := (bx + by_).emod 2
  let h := hash2D seed bx by_
  let v := if parity = 1 then h >>> 1 else h >>> 3
  jsFloorMod (v : Nat) paletteLen

/-- Mode 11 (diamonds): Manhattan distance bands from the center.
The center is ((W-1)/2, (H-1)/2); distances are half-integers, embedded
exactly by scaling by 2: |x - cx| = |2x - (W-1)| / 2, and
floor(d / blockSize) = (|2x-(W-1)| + |2y-(H-1)|) / (2 * blockSize) in Nat. -/
def mode11 (seed blockSize : Nat) (paletteLen : Int) (W H x y : Int) : Int :=
  let band := ((2 * x - (W - 1)).natAbs + (2 * y - (H - 1)).natAbs) / (2 * blockSize)
  jsFloorMod (fmix32 (seed + band * 0x45d9f3b) : Nat) paletteLen

/-- Mode 12 (squares): Chebyshev distance bands from the center, scaled by
2 exactly as in mode 11. -/
def mode12 (seed blockSize : Nat) (paletteLen : Int) (W H x y : Int) : Int :=
  let band := (max (2 * x - (W - 1)).natAbs (2 * y - (H - 1)).natAbs) / (2 * blockSize)
  jsFloorMod (fmix32 (seed + band * 0x27d4eb2d) : Nat) paletteLen

/-- Mode 15 (bricks): staggered brick tiling.  Math.floor(y / bh) is
Int.fdiv; row & 1 on a signed 32-bit value is the low bit, Int.emod row 2;
bw >> 1 is bw / 2. -/
def mode15 (seed blockSize : Nat) (paletteLen : Int) (_W _H x y : Int) : Int :=
  let bw := 2 * blockSize
  let bh := blockSize
  let row := y.fdiv bh
  let x2 := x + (if row.emod 2 = 1 then (bw / 2 : Nat) else 0)
  let bx := x2.fdiv bw
  jsFloorMod (hash2D seed bx row : Nat) paletteLen

/-- Mode 18 (weave): strand bands return the fixed palette anchors 0 and 2;
the background cell is hashed.  Half-integer distances to the strand center
are scaled by 2: |x % weaveP - weaveP/2| < weaveT becomes
|2 * (x tmod weaveP) - weaveP| < 2 * weaveT. -/
def mode18 (seed blockSize : Nat) (paletteLen : Int) (_W _H x y : Int) : Int :=
  let weaveP := max 3 (2 * blockSize)
  let weaveT := max 1 (weaveP / 5)
  let ax2 := (2 * (x.tmod weaveP) - weaveP).natAbs
  let ay2 := (2 * (y.tmod weaveP) - weaveP).natAbs
  if ¬(ax2 < 2 * weaveT ∨ ay2 < 2 * weaveT) then
    jsFloorMod (hash2D seed (x.tdiv weaveP) (y.tdiv weaveP) : Nat) paletteLen
  else
    let tile := (toU32 (x.tdiv weaveP) ^^^ toU32 (y.tdiv weaveP)) % 2
    if tile = 1 then 0 else 2

/-- Mode 19 (crosshatch): lattice bands return the fixed anchors 1 and 3;
the background cell is hashed.  hatchP / 6 under Math.floor is exact for
the option-derived hatchP values. -/
def mode19 (seed blockSize : Nat) (paletteLen : Int) (_W _H x y : Int) : Int :=
  let hatchP := max 4 (3 * blockSize)
  let hatchT := max 1 (hatchP / 6)
  let ax2 := (2 * (x.tmod hatchP) - hatchP).natAbs
  let ay2 := (2 * (y.tmod hatchP) - hatchP).natAbs
  if ¬(ax2 < 2 * hatchT ∨ ay2 < 2 * hatchT) then
    jsFloorMod (hash2D seed (x.tdiv hatchP) (y.tdiv hatchP) : Nat) paletteLen
  else if (x.tdiv hatchP).emod 2 = 1 then 1 else 3

/-- Mode 20 (rot45 checker): (a ^ b) & 3 on the rotated cell indices, then
a truncating remainder by paletteLen (the operand is non-negative). -/
def mode20 (_seed blockSize : Nat) (paletteLen : Int) (_W _H x y : Int) : Int :=
  let rcStep := max 2 (2 * blockSize)
  let a := (x + y).fdiv rcStep
  let b := (x - y).fdiv rcStep
  let v := (toU32 a ^^^ toU32 b) &&& 3
  ((v : Nat) : Int).tmod paletteLen

/-- Mode 21 (kaleido8): reflect into one octant around the center, then
hash the block cell.  All center arithmetic is scaled by 2 exactly. -/
def mode21 (seed blockSize : Nat) (paletteLen : Int) (W H x y : Int) : Int :=
  let ax := (2 * x - (W - 1)).natAbs
  let ay := (2 * y - (H - 1)).natAbs
  let s := if ay > ax then (ay, ax) else (ax, ay)
  let sx := ((s.1 : Int) + (W - 1)).fdiv (2 * blockSize)
  let sy := ((s.2 : Int) + (H - 1)).fdiv (2 * blockSize)
  jsFloorMod (hash2D seed sx sy : Nat) paletteLen

/-- Mode 22 (concentric squares): Chebyshev rings with emphasized borders.
Distances are scaled by 2: edge < 1 becomes edge2 < 2 and
edge > bandW - 2 becomes edge2 > 2 * bandW - 4. -/
def mode22 (seed blockSize : Nat) (paletteLen : Int) (W H x y : Int) : Int :=
  let bandW := max 2 blockSize
  let d2 := max (2 * x - (W - 1)).natAbs (2 * y - (H - 1)).natAbs
  let k := d2 / (2 * bandW)
  let edge2 := d2 % (2 * bandW)
  let edgeBias := if edge2 < 2 ∨ edge2 > 2 * bandW - 4 then 1 else 0
  jsFloorMod ((k + edgeBias + seed % 2 : Nat) : Int) paletteLen

/-- Mode 24 (dots grid): a disc lattice over hashed cells.  The disc test
(x - cxp)^2 + (y - cyp)^2 <= rr^2 with rr = step * 0.28 is embedded as
625 * dist2 <= 49 * step^2 (0.28^2 = 49/625); for every step value derived
from BLOCK_OPTIONS the float threshold lies strictly between the same two
consecutive integers as the rational one, so the integer comparison agrees. -/
def mode24 (seed blockSize : Nat) (paletteLen : Int) (_W _H x y : Int) : Int :=
  let step := max 4 (3 * blockSize)
  let bx := x.fdiv step
  let by_ := y.fdiv step
  let cxp := bx * step + (step / 2 : Nat)
  let cyp := by_ * step + (step / 2 : Nat)
  let dx := x - cxp
  let dy := y - cyp
  if 625 * (dx * dx + dy * dy) ≤ 49 * (step : Int) * step then
    ((seed &&& 2 : Nat) : Int)
  else
    jsFloorMod (hash2D seed bx by_ : Nat) paletteLen

/-- Mode 26 (square maze): wall bands take a seed-parity color reduced by a
truncating remainder; corridors take the fixed anchors 0 and 3. -/
def mode26 (seed blockSize : Nat) (paletteLen : Int) (_W _H x y : Int) : Int :=
  let cell := max 6 (3 * blockSize)
  let wall := max 1 (cell / 6)
  let gx := x.tmod cell
  let gy := y.tmod cell
  if gx < (wall : Int) ∨ gy < (wall : Int) then
    ((1 + seed % 2 : Nat) : Int).tmod paletteLen
  else
    let tx := x.tdiv cell
    let ty := y.tdiv cell
    if (toU32 tx ^^^ toU32 ty) % 2 = 1 then 0 else 3

/-- Mode 27 (iso cubes): three faces by (u + v) mod 3; the third face mixes
one hash bit, giving 3 ^ (h & 1), one of the anchors 2 or 3. -/
def mode27 (seed blockSize : Nat) (_paletteLen : Int) (_W _H x y : Int) : Int :=
  let s := max 6 (3 * blockSize)
  let u := (x + y).fdiv s
  let v := (x - y).fdiv s
  let face := jsFloorMod (u + v) 3
  let h := hash2D seed u v
  if face = 0 then 1 else if face = 1 then 2 else ((3 ^^^ (h % 2) : Nat) : Int)

/-- Mode 29 (triangles): alternating right triangles with anchors 1 and 2,
flipped to base ^ 3 outside the diagonal. -/
def mode29 (_seed blockSize : Nat) (_paletteLen : Int) (_W _H x y : Int) : Int :=
  let s := max 6 (3 * blockSize)
  let gx := x.fdiv s
  let gy := y.fdiv s
  let lx := x.tmod s
  let ly := y.tmod s
  let base : Nat := if (toU32 gx ^^^ toU32 gy) % 2 = 1 then 1 else 2
  if lx + ly < (s : Int) then (base : Int) else ((base ^^^ 3 : Nat) : Int)

/-- Mode 30 (chevron): V stripes from the center; |x - cx| + (y - cy) is an
integer, embedded as (|2x - (W-1)| + (2y - (H-1))) / 2, and the band is its
floor division by the step, folded into one Int.fdiv. -/
def mode30 (_seed blockSize : Nat) (paletteLen : Int) (W H x y : Int) : Int :=
  let step := max 2 blockSize
  let v := (((2 * x - (W - 1)).natAbs : Int) + (2 * y - (H - 1))).fdiv (2 * step)
  jsFloorMod v paletteLen

/-- Test for a lowercase hex character 0-9 or a-f (the shape of canonical
output characters). -/
def isLowerHexChar (c : Char) : Bool :=
  (48 ≤ c.toNat && c.toNat ≤ 57) || (97 ≤ c.toNat && c.toNat ≤ 102)

/-! ## Arithmetic toolbox -/

theorem neg_lt_tmod (n : Int) {p : Int} (hp : 0 < p) : -p < n.tmod p := by
  cases n with
  | ofNat m =>
    have h := Int.tmod_nonneg p (Int.ofNat_nonneg m)
    simp only [Int.ofNat_eq_natCast] at h ⊢
    omega
  | negSucc m =>
    cases p with
    | ofNat k =>
      have hk : 0 < k := by
        simp only [Int.ofNat_eq_natCast] at hp
        exact_mod_cast hp
      have h1 : (Int.negSucc m).tmod (Int.ofNat k) = -Int.ofNat (m.succ % k) := rfl
      have h2 : m.succ % k < k := Nat.mod_lt _ hk
      simp only [Int.ofNat_eq_natCast] at h1 ⊢
      rw [h1]
      have h3 : ((m.succ % k : Nat) : Int) < (k : Int) := by exact_mod_cast h2
      omega
    | negSucc k =>
      exact absurd hp (by
        have := Int.negSucc_lt_zero k
        omega)

theorem jsFloorMod_bounds (n : Int) {p : Int} (hp : 0 < p) :
    0 ≤ jsFloorMod n p ∧ jsFloorMod n p < p := by
  unfold jsFloorMod
  have h1 : n.tmod p < p := Int.tmod_lt_of_pos n hp
  have h2 : -p < n.tmod p := neg_lt_tmod n hp
  have h3 : 0 ≤ n.tmod p + p := by omega
  exact ⟨Int.tmod_nonneg p h3, Int.tmod_lt_of_pos _ hp⟩

theorem tmod_natCast_bounds (m : Nat) {p : Int} (hp : 0 < p) :
    0 ≤ ((m : Nat) : Int).tmod p ∧ ((m : Nat) : Int).tmod p < p :=
  ⟨Int.tmod_nonneg p (by positivity), Int.tmod_lt_of_pos _ hp⟩

/-! ## C9: render-loop floor-mod normalization -/

/-- C9: the render loop of src/js/app.js reduces every indexer result with
((cidx % palette.length) + palette.length) % palette.length, and for any
positive palette length the reduced value lies in [0, palette.length), so
the palette lookup is never out of bounds. -/
theorem c9_render_floor_mod (cidx p : Int) (hp : 0 < p) :
    0 ≤ renderNormalize cidx p ∧ renderNormalize cidx p < p :=
  jsFloorMod_bounds cidx hp

theorem c9_render_floor_mod_witness :
    (0 : Int) < (PALETTE_BASE.length : Int) ∧
      (0 ≤ renderNormalize (-7) (PALETTE_BASE.length : Int) ∧
        renderNormalize (-7) (PALETTE_BASE.length : Int) < (PALETTE_BASE.length : Int)) :=
  ⟨by decide, c9_render_floor_mod (-7) (PALETTE_BASE.length : Int) (by decide)⟩

/-! ## C8: deterministic parameter derivation in the caller -/

/-- C8: for every uint32 seed the caller derives
blockSize = BLOCK_OPTIONS[fmix32(seed + 0xbeef) mod 5],
modeIndex = fmix32(seed + 0x1234) mod 32 and
paletteRotation = fmix32(seed + 0x5a5a) mod 4, the mode index names one of
the 32 registry entries, and the block size is one of the options. -/
theorem c8_seed_derivation (seed : Nat) (_hs : seed < M32) :
    deriveBlockSize seed = BLOCK_OPTIONS.getD (fmix32 (seed + 0xbeef) % BLOCK_OPTIONS.length) 0
    ∧ deriveModeIdx seed = fmix32 (seed + 0x1234) % MODE_NAMES.length
    ∧ deriveRotation seed = fmix32 (seed + 0x5a5a) % 4
    ∧ deriveModeIdx seed < 32
    ∧ deriveBlockSize seed ∈ BLOCK_OPTIONS := by
  refine ⟨rfl, rfl, rfl, ?_, ?_⟩
  · show fmix32 (seed + 0x1234) % MODE_NAMES.length < 32
    have h : MODE_NAMES.length = 32 := by rfl
    rw [h]
    exact Nat.mod_lt _ (by norm_num)
  · unfold deriveBlockSize
    have hk5 : fmix32 (seed + 0xbeef) % BLOCK_OPTIONS.length < 5 :=
      Nat.mod_lt _ (by norm_num [BLOCK_OPTIONS])
    set k := fmix32 (seed + 0xbeef) % BLOCK_OPTIONS.length with hk
    clear_value k
    interval_cases k <;> decide

theorem c8_seed_derivation_witness :
    (0 : Nat) < M32 ∧
      (deriveBlockSize 0 = BLOCK_OPTIONS.getD (fmix32 (0 + 0xbeef) % BLOCK_OPTIONS.length) 0
      ∧ deriveModeIdx 0 = fmix32 (0 + 0x1234) % MODE_NAMES.length
      ∧ deriveRotation 0 = fmix32 (0 + 0x5a5a) % 4
      ∧ deriveModeIdx 0 < 32
      ∧ deriveBlockSize 0 ∈ BLOCK_OPTIONS) :=
  ⟨by decide, c8_seed_derivation 0 (by decide)⟩

/-! ## C4: hexToSeed32 against the FNV-1a reference -/

theorem fnvLoop_eq_foldl : ∀ (s : List Char) (h : Nat),
    fnvLoop h s = (specBytes s).foldl specFnvStep h
  | [], _ => rfl
  | [_], _ => rfl
  | _ :: _ :: rest, h => by
    show fnvLoop _ rest = _
    rw [fnvLoop_eq_foldl rest]
    rfl

/-- C4: hexToSeed32 equals the FNV-1a reference definition: the empty
string maps to the offset basis 0x811c9dc5, an odd-length string is
processed as if left-padded with one leading 0, and the seed is the
left-to-right fold of h = (h XOR byte) * 0x01000193 mod 2^32 over the byte
pairs starting from the basis. -/
theorem c4_fnv_reference :
    hexToSeed32 [] = 0x811c9dc5
    ∧ (∀ s : List Char, s.length % 2 = 1 → hexToSeed32 s = hexToSeed32 ('0' :: s))
    ∧ (∀ s : List Char, hexToSeed32 s = specFnvSeed s) := by
  refine ⟨rfl, ?_, ?_⟩
  · intro s hodd
    have hne : s ≠ [] := by
      intro h
      rw [h] at hodd
      simp at hodd
    have hlen : ¬(('0' :: s).length % 2 = 1) := by
      simp only [List.length_cons]
      omega
    unfold hexToSeed32
    rw [if_neg hne, if_pos hodd, if_neg (List.cons_ne_nil _ _), if_neg hlen]
  · intro s
    unfold hexToSeed32 specFnvSeed
    split_ifs with h1 h2
    · rfl
    · exact fnvLoop_eq_foldl _ _
    · exact fnvLoop_eq_foldl _ _

theorem c4_fnv_reference_witness :
    (['a'].length % 2 = 1) ∧ hexToSeed32 ['a'] = hexToSeed32 ('0' :: ['a']) :=
  ⟨by decide, c4_fnv_reference.2.1 ['a'] (by decide)⟩

/-! ## Character and serialization lemmas -/

theorem lowerHex_isHexDigit {c : Char} (h : isLowerHexChar c = true) : isHexDigitJS c = true := by
  simp only [isLowerHexChar, isHexDigitJS, Bool.or_eq_true, Bool.and_eq_true,
    decide_eq_true_eq] at h ⊢
  omega

theorem jsToLower_of_lower {c : Char} (h : isLowerHexChar c = true) : jsToLower c = c := by
  simp only [isLowerHexChar, Bool.or_eq_true, Bool.and_eq_true, decide_eq_true_eq] at h
  unfold jsToLower
  rw [if_neg]
  simp only [Bool.and_eq_true, decide_eq_true_eq, not_and]
  omega

theorem lower_of_hexdigit {c : Char} (h : isHexDigitJS c = true) :
    isLowerHexChar (jsToLower c) = true := by
  simp only [isHexDigitJS, Bool.or_eq_true, Bool.and_eq_true, decide_eq_true_eq] at h
  unfold jsToLower
  by_cases hc : (65 ≤ c.toNat && c.toNat ≤ 90) = true
  · rw [if_pos hc]
    simp only [Bool.and_eq_true, decide_eq_true_eq] at hc
    have h70 : 65 ≤ c.toNat ∧ c.toNat ≤ 70 := by omega
    obtain ⟨ha, hb⟩ := h70
    interval_cases hcc : c.toNat <;> decide
  · rw [if_neg hc]
    simp only [Bool.and_eq_true, decide_eq_true_eq, not_and] at hc
    simp only [isLowerHexChar, Bool.or_eq_true, Bool.and_eq_true, decide_eq_true_eq]
    omega

theorem cleanHex_lower (s : List Char) : ∀ c ∈ cleanHex s, isLowerHexChar c = true := by
  intro c hc
  unfold cleanHex at hc
  simp only [List.mem_map] at hc
  obtain ⟨d, hd, rfl⟩ := hc
  exact lower_of_hexdigit (List.of_mem_filter hd)

theorem M32_eq : M32 = 2 ^ 32 := by norm_num [M32]

theorem xorShift_lt {x : Nat} (hx : x < 2 ^ 32) (k : Nat) : x ^^^ (x >>> k) < 2 ^ 32 :=
  Nat.xor_lt_two_pow hx
    (lt_of_le_of_lt (by rw [Nat.shiftRight_eq_div_pow]; exact Nat.div_le_self _ _) hx)

theorem fmix32_lt (a : Nat) : fmix32 a < M32 := by
  unfold fmix32
  rw [M32_eq]
  exact xorShift_lt (Nat.mod_lt _ (by norm_num [M32])) 16

theorem hexDigitChar_lower {d : Nat} (hd : d < 16) : isLowerHexChar (hexDigitChar d) = true := by
  interval_cases d <;> decide

theorem toHexAux_length : ∀ (k w : Nat) (acc : List Char), w < 16 ^ k →
    (toHexAux w acc).length ≤ k + acc.length := by
  intro k
  induction k with
  | zero =>
    intro w acc hw
    have hw0 : w = 0 := by omega
    subst hw0
    rw [toHexAux]
    simp
  | succ k ih =>
    intro w acc hw
    rw [toHexAux]
    split_ifs with h0
    · omega
    · have hdiv : w / 16 < 16 ^ k := by
        rw [Nat.div_lt_iff_lt_mul (by norm_num)]
        calc w < 16 ^ (k + 1) := hw
        _ = 16 ^ k * 16 := by ring
      have := ih (w / 16) (hexDigitChar (w % 16) :: acc) hdiv
      simp only [List.length_cons] at this
      omega

theorem toHexAux_mem (w : Nat) : ∀ (acc : List Char),
    (∀ c ∈ acc, isLowerHexChar c = true) →
      ∀ c ∈ toHexAux w acc, isLowerHexChar c = true := by
  induction w using Nat.strong_induction_on with
  | _ w ih =>
    intro acc hacc c hc
    rw [toHexAux] at hc
    split_ifs at hc with h0
    · exact hacc c hc
    · refine ih (w / 16) (Nat.div_lt_self (Nat.pos_of_ne_zero h0) (by norm_num)) _ ?_ c hc
      intro d hd
      rcases List.mem_cons.mp hd with rfl | hd2
      · exact hexDigitChar_lower (Nat.mod_lt _ (by norm_num))
      · exact hacc d hd2

theorem toHexMin_length {w : Nat} (hw : w < M32) : (toHexMin w).length ≤ 8 := by
  unfold toHexMin
  split_ifs with h0
  · simp
  · have h16 : w < 16 ^ 8 := by
      calc w < M32 := hw
      _ ≤ 16 ^ 8 := by norm_num [M32]
    have := toHexAux_length 8 w [] h16
    simpa using this

theorem toHexMin_lower (w : Nat) : ∀ c ∈ toHexMin w, isLowerHexChar c = true := by
  unfold toHexMin
  split_ifs with h0
  · intro c hc
    simp only [List.mem_singleton] at hc
    subst hc
    decide
  · exact toHexAux_mem w [] (by simp)

theorem padStart8_length {l : List Char} (h : l.length ≤ 8) : (padStart8 l).length = 8 := by
  unfold padStart8
  simp only [List.length_append, List.length_replicate]
  omega

theorem padStart8_mem {l : List Char} (h : ∀ c ∈ l, isLowerHexChar c = true) :
    ∀ c ∈ padStart8 l, isLowerHexChar c = true := by
  intro c hc
  unfold padStart8 at hc
  rcases List.mem_append.mp hc with h1 | h2
  · have := List.eq_of_mem_replicate h1
    subst this
    decide
  · exact h c h2

theorem compress_words_lt (hex : List Char) (n : Nat) :
    ∀ w ∈ compressHexToWords hex n, w < M32 := by
  intro w hw
  unfold compressHexToWords at hw
  simp only [List.mem_map] at hw
  obtain ⟨i, _, rfl⟩ := hw
  exact fmix32_lt _

theorem compress_length (hex : List Char) (n : Nat) :
    (compressHexToWords hex n).length = n := by
  unfold compressHexToWords
  simp

theorem wordsToHex_length : ∀ (ws : List Nat), (∀ w ∈ ws, w < M32) →
    (wordsToHex ws).length = 8 * ws.length := by
  intro ws
  induction ws with
  | nil => intro _; rfl
  | cons a t ih =>
    intro h
    unfold wordsToHex at ih ⊢
    simp only [List.map_cons, List.flatten_cons, List.length_append, List.length_cons]
    rw [ih (fun w hw => h w (List.mem_cons_of_mem _ hw))]
    rw [padStart8_length (toHexMin_length (h a (List.mem_cons_self _ _)))]
    ring

theorem wordsToHex_lower (ws : List Nat) : ∀ c ∈ wordsToHex ws, isLowerHexChar c = true := by
  intro c hc
  unfold wordsToHex at hc
  simp only [List.mem_flatten, List.mem_map] at hc
  obtain ⟨l, ⟨w, hw, rfl⟩, hcl⟩ := hc
  exact padStart8_mem (toHexMin_lower w) c hcl

/-! ## C2: shape of normalizeHex output -/

/-- C2 counterexample: normalizeHex does not pad to even length; the input
"a" normalizes to "a", whose length 1 is odd. -/
theorem c2_counterexample :
    normalizeHex ['a'] = ['a'] ∧ (normalizeHex ['a']).length % 2 = 1 := by
  decide

theorem normalizeHex_cases (s : List Char) :
    normalizeHex s = []
    ∨ (normalizeHex s = cleanHex s ∧ (cleanHex s).length ≤ 128)
    ∨ (128 < (cleanHex s).length
        ∧ normalizeHex s = wordsToHex (compressHexToWords (cleanHex s) COMPRESS_TO_WORDS)) := by
  unfold normalizeHex
  split_ifs with h1 h2 h3
  · left
    rfl
  · left
    rfl
  · right
    right
    exact ⟨h3, rfl⟩
  · right
    left
    refine ⟨rfl, ?_⟩
    simp only [MAX_HEX_NORM, not_lt] at h3
    exact h3

theorem normalizeHex_shape (s : List Char) :
    (∀ c ∈ normalizeHex s, isLowerHexChar c = true) ∧ (normalizeHex s).length ≤ 128 := by
  rcases normalizeHex_cases s with h | ⟨h, hl⟩ | ⟨hl, h⟩
  · rw [h]
    exact ⟨by simp, by simp⟩
  · rw [h]
    exact ⟨cleanHex_lower s, hl⟩
  · rw [h]
    refine ⟨wordsToHex_lower _, ?_⟩
    rw [wordsToHex_length _ (compress_words_lt _ _), compress_length]
    decide

/-- C2 (amended): for every input string, normalizeHex returns a lowercase
string over [0-9a-f] of length at most 128; the length is not padded to be
even (odd-length cleaned inputs are returned as they are; padding happens
later, inside hexToSeed32). -/
theorem c2_normalize_shape (s : List Char) :
    (∀ c ∈ normalizeHex s, isLowerHexChar c = true) ∧ (normalizeHex s).length ≤ 128 :=
  normalizeHex_shape s

/-! ## C6: long inputs compress to exactly 64 characters -/

theorem normalizeHex_long_eq (s : List Char) (h : 128 < (cleanHex s).length) :
    normalizeHex s = wordsToHex (compressHexToWords (cleanHex s) COMPRESS_TO_WORDS) := by
  have hne : ¬s = [] := by
    intro hs
    rw [hs] at h
    simp [cleanHex, stripHex0x] at h
  have hcne : ¬cleanHex s = [] := by
    intro hc
    rw [hc] at h
    simp at h
  unfold normalizeHex
  rw [if_neg hne, if_neg hcne, if_pos (by exact h)]

theorem normalizeHex_long_length (s : List Char) (h : 128 < (cleanHex s).length) :
    (normalizeHex s).length = 64 := by
  rw [normalizeHex_long_eq s h, wordsToHex_length _ (compress_words_lt _ _), compress_length]
  decide

/-- C6: when the cleaned hex is longer than 128 characters, normalizeHex
returns exactly 64 lowercase hex characters, obtained by serializing the 8
compressor words as 8 zero-padded hex digits each; the function is pure, so
repeated calls give byte-identical results. -/
theorem c6_long_compress (s : List Char) (h : 128 < (cleanHex s).length) :
    (normalizeHex s).length = 64
    ∧ (∀ c ∈ normalizeHex s, isLowerHexChar c = true)
    ∧ normalizeHex s = wordsToHex (compressHexToWords (cleanHex s) COMPRESS_TO_WORDS)
    ∧ normalizeHex s = normalizeHex s := by
  refine ⟨normalizeHex_long_length s h, ?_, normalizeHex_long_eq s h, rfl⟩
  rw [normalizeHex_long_eq s h]
  exact wordsToHex_lower _

set_option maxRecDepth 100000 in
theorem c6_long_compress_witness :
    128 < (cleanHex (List.replicate 130 'a')).length ∧
      ((normalizeHex (List.replicate 130 'a')).length = 64
      ∧ (∀ c ∈ normalizeHex (List.replicate 130 'a'), isLowerHexChar c = true)
      ∧ normalizeHex (List.replicate 130 'a') =
          wordsToHex (compressHexToWords (cleanHex (List.replicate 130 'a')) COMPRESS_TO_WORDS)
      ∧ normalizeHex (List.replicate 130 'a') = normalizeHex (List.replicate 130 'a')) :=
  ⟨by decide, c6_long_compress (List.replicate 130 'a') (by decide)⟩

/-! ## C7: idempotence of normalizeHex -/

theorem stripHex0x_of_lower (l : List Char) (h : ∀ c ∈ l, isLowerHexChar c = true) :
    stripHex0x l = l := by
  cases l with
  | nil => rfl
  | cons c0 t =>
    cases t with
    | nil => rfl
    | cons c1 rest =>
      show (if c0 = '0' ∧ (c1 = 'x' ∨ c1 = 'X') then rest else (c0 :: c1 :: rest)) =
        c0 :: c1 :: rest
      rw [if_neg]
      rintro ⟨rfl, rfl | rfl⟩
      · exact absurd (h 'x' (by simp)) (by decide)
      · exact absurd (h 'X' (by simp)) (by decide)

theorem cleanHex_of_lower (l : List Char) (h : ∀ c ∈ l, isLowerHexChar c = true) :
    cleanHex l = l := by
  unfold cleanHex
  rw [stripHex0x_of_lower l h]
  rw [List.filter_eq_self.mpr (fun c hc => lowerHex_isHexDigit (h c hc))]
  have : ∀ c ∈ l, jsToLower c = c := fun c hc => jsToLower_of_lower (h c hc)
  calc l.map jsToLower = l.map id := List.map_congr_left this
  _ = l := List.map_id l

/-- C7: normalizeHex is idempotent on every input; in particular an
already-canonical output, including a 64-character compressed result, is
left unchanged because its characters are lowercase hex and its length is
at most 128. -/
theorem c7_normalize_idempotent (s : List Char) :
    normalizeHex (normalizeHex s) = normalizeHex s := by
  obtain ⟨hlow, hlen⟩ := normalizeHex_shape s
  by_cases ht : normalizeHex s = []
  · rw [ht]
    rfl
  · have hclean : cleanHex (normalizeHex s) = normalizeHex s :=
      cleanHex_of_lower _ hlow
    have hm : MAX_HEX_NORM = 128 := rfl
    set t := normalizeHex s with hts
    unfold normalizeHex
    rw [hclean, if_neg ht, if_neg ht,
      if_neg (by omega : ¬MAX_HEX_NORM < t.length)]

/-! ## C10: equivalence with the legacy normalizer -/

/-- C10: the current normalizer and the legacy (no-compressor) normalizer
agree exactly on the inputs whose cleaned hex has length at most 128; on
longer inputs they differ, the current one returning 64 characters and the
legacy one the full cleaned string. -/
theorem c10_legacy_equiv (s : List Char) :
    normalizeHex s = normalizeHexLegacy s ↔ (cleanHex s).length ≤ 128 := by
  by_cases hne : s = []
  · subst hne
    simp [normalizeHex, normalizeHexLegacy, cleanHex, stripHex0x]
  · by_cases hc : cleanHex s = []
    · constructor
      · intro _
        rw [hc]
        simp
      · intro _
        unfold normalizeHex normalizeHexLegacy
        rw [if_neg hne, if_neg hne, hc]
        simp
    · by_cases hl : 128 < (cleanHex s).length
      · constructor
        · intro heqn
          exfalso
          have h64 : (normalizeHex s).length = 64 := normalizeHex_long_length s hl
          have hleg : (normalizeHexLegacy s).length = (cleanHex s).length := by
            unfold normalizeHexLegacy
            rw [if_neg hne]
          rw [heqn, hleg] at h64
          omega
        · intro hle
          omega
      · constructor
        · intro _
          omega
        · intro _
          unfold normalizeHex normalizeHexLegacy
          rw [if_neg hne, if_neg hne, if_neg hc, if_neg (by simpa [MAX_HEX_NORM] using hl)]

/-! ## C5: compressHexToWords against the reference compressor -/

theorem and3_eq_mod4 (n : Nat) : n &&& 3 = n % 4 := by
  have h := Nat.and_pow_two_sub_one_eq_mod n 2
  norm_num at h
  exact h

theorem stepPair_eq_specStep : ∀ (lane b : Nat) (h : Nat × Nat × Nat × Nat),
    stepPair lane b h = specStep lane b h
  | 0, _, (_, _, _, _) => rfl
  | 1, _, (_, _, _, _) => rfl
  | 2, _, (_, _, _, _) => rfl
  | 3, _, (_, _, _, _) => rfl
  | _ + 4, _, (_, _, _, _) => rfl

theorem core_eq : ∀ (chars : List Char) (i : Nat) (h4 : Nat × Nat × Nat × Nat),
    compressCore (i % 4) h4 chars = specCompressCore i h4 (specBytes chars)
  | [], _, _ => rfl
  | [c], i, h4 => by
    show stepPair (i % 4) (hexDigitVal c) h4
      = specCompressCore (i + 1) (specStep (i % 4) (hexDigitVal c) h4) []
    rw [stepPair_eq_specStep]
    rfl
  | c1 :: c2 :: rest, i, h4 => by
    show compressCore ((i % 4 + 1) &&& 3)
        (stepPair (i % 4) (16 * hexDigitVal c1 + hexDigitVal c2) h4) rest
      = specCompressCore (i + 1)
        (specStep (i % 4) (16 * hexDigitVal c1 + hexDigitVal c2) h4) (specBytes rest)
    rw [stepPair_eq_specStep]
    have hmask : (i % 4 + 1) &&& 3 = (i + 1) % 4 := by
      rw [and3_eq_mod4]
      omega
    rw [hmask]
    exact core_eq rest (i + 1) _

/-- C5: compressHexToWords equals the reference compressor of the spec on
every hex string and output word count: four lanes initialized to
0x811c9dc5 XOR {1,2,3,4}, the FNV-1a step on lane i mod 4 followed by the
cross-lane stir into the next lane, the odd final nibble treated as
"0" + lastChar, fmix finalization of every lane, and word i derived as
fmix(h[i mod 4] + (i+1) * 0x9e3779b9 mod 2^32). -/
theorem c5_compress_reference (hex : List Char) (outWords : Nat) :
    compressHexToWords hex outWords = specCompress hex outWords := by
  have hcore : compressCore 0
      (0x811c9dc5 ^^^ 0x01, 0x811c9dc5 ^^^ 0x02, 0x811c9dc5 ^^^ 0x03, 0x811c9dc5 ^^^ 0x04) hex
      = specCompressCore 0
      (0x811c9dc5 ^^^ 1, 0x811c9dc5 ^^^ 2, 0x811c9dc5 ^^^ 3, 0x811c9dc5 ^^^ 4)
      (specBytes hex) := by
    simpa using core_eq hex 0
      (0x811c9dc5 ^^^ 0x01, 0x811c9dc5 ^^^ 0x02, 0x811c9dc5 ^^^ 0x03, 0x811c9dc5 ^^^ 0x04)
  simp only [compressHexToWords, specCompress, hcore, and3_eq_mod4]

/-! ## C3: symmetry invariants of the folding modes -/

theorem pairMin_comm (a b : Int × Int) : pairMin a b = pairMin b a := by
  obtain ⟨a1, a2⟩ := a
  obtain ⟨b1, b2⟩ := b
  simp only [pairMin]
  split_ifs <;> first | rfl | (simp only [Prod.mk.injEq]; omega)

theorem pairMin_assoc (a b c : Int × Int) :
    pairMin (pairMin a b) c = pairMin a (pairMin b c) := by
  obtain ⟨a1, a2⟩ := a
  obtain ⟨b1, b2⟩ := b
  obtain ⟨c1, c2⟩ := c
  simp only [pairMin]
  split_ifs <;> first | rfl | (simp only [Prod.mk.injEq]; omega)

theorem min4_rot (a b c d : Int × Int) :
    pairMin (pairMin (pairMin b c) d) a = pairMin (pairMin (pairMin a b) c) d := by
  calc pairMin (pairMin (pairMin b c) d) a = pairMin a (pairMin (pairMin b c) d) :=
        pairMin_comm _ _
  _ = pairMin (pairMin a (pairMin b c)) d := (pairMin_assoc _ _ _).symm
  _ = pairMin (pairMin (pairMin a b) c) d := by rw [pairMin_assoc a b c]

theorem rot4Canonical_rot (x y W : Int) :
    rot4Canonical (W - 1 - y) x W W = rot4Canonical x y W W := by
  unfold rot4Canonical
  have e1 : W - 1 - (W - 1 - y) = y := by ring
  rw [e1]
  exact min4_rot (x, y) (W - 1 - y, x) (W - 1 - x, W - 1 - y) (y, W - 1 - x)

theorem mirrorFold_symm (W x : Int) :
    (if 2 * (W - 1 - x) < W then W - 1 - x else W - 1 - (W - 1 - x))
      = (if 2 * x < W then x else W - 1 - x) := by
  split_ifs <;> omega

/-- C3: for coordinates inside the canvas, the vertical-mirror indexer is
invariant under x to W-1-x, the horizontal-mirror indexer under y to H-1-y,
the quad-mirror indexer under both, and, for a square canvas, the rot4
indexer returns the same index at all four rotational images of a point. -/
theorem c3_symmetry (seed blockSize : Nat) (p W H x y : Int)
    (_hx1 : 0 ≤ x) (_hx2 : x < W) (_hy1 : 0 ≤ y) (_hy2 : y < H) :
    mode1 seed blockSize p W H x y = mode1 seed blockSize p W H (W - 1 - x) y
    ∧ mode2 seed blockSize p W H x y = mode2 seed blockSize p W H x (H - 1 - y)
    ∧ (mode3 seed blockSize p W H x y = mode3 seed blockSize p W H (W - 1 - x) y
       ∧ mode3 seed blockSize p W H x y = mode3 seed blockSize p W H x (H - 1 - y))
    ∧ (W = H →
        mode6 seed blockSize p W H x y = mode6 seed blockSize p W H (W - 1 - y) x
        ∧ mode6 seed blockSize p W H x y = mode6 seed blockSize p W H (W - 1 - x) (H - 1 - y)
        ∧ mode6 seed blockSize p W H x y = mode6 seed blockSize p W H y (H - 1 - x)) := by
  refine ⟨?_, ?_, ⟨?_, ?_⟩, ?_⟩
  · simp only [mode1]
    rw [mirrorFold_symm]
  · simp only [mode2]
    rw [mirrorFold_symm]
  · simp only [mode3]
    rw [mirrorFold_symm]
  · simp only [mode3]
    rw [mirrorFold_symm]
  · intro hWH
    subst hWH
    have h1 : rot4Canonical (W - 1 - y) x W W = rot4Canonical x y W W :=
      rot4Canonical_rot x y W
    have h2 : rot4Canonical (W - 1 - x) (W - 1 - y) W W = rot4Canonical (W - 1 - y) x W W :=
      rot4Canonical_rot (W - 1 - y) x W
    have h3 : rot4Canonical y (W - 1 - x) W W = rot4Canonical (W - 1 - x) (W - 1 - y) W W := by
      have h := rot4Canonical_rot (W - 1 - x) (W - 1 - y) W
      have e : W - 1 - (W - 1 - y) = y := by ring
      rw [e] at h
      exact h
    refine ⟨?_, ?_, ?_⟩ <;> simp only [mode6]
    · rw [h1]
    · rw [h2, h1]
    · rw [h3, h2, h1]

theorem c3_symmetry_witness :
    ((0 : Int) ≤ 3 ∧ (3 : Int) < 128 ∧ (0 : Int) ≤ 5 ∧ (5 : Int) < 128) ∧
      (mode1 1 1 4 128 128 3 5 = mode1 1 1 4 128 128 (128 - 1 - 3) 5
      ∧ mode2 1 1 4 128 128 3 5 = mode2 1 1 4 128 128 3 (128 - 1 - 5)
      ∧ (mode3 1 1 4 128 128 3 5 = mode3 1 1 4 128 128 (128 - 1 - 3) 5
         ∧ mode3 1 1 4 128 128 3 5 = mode3 1 1 4 128 128 3 (128 - 1 - 5))
      ∧ ((128 : Int) = 128 →
          mode6 1 1 4 128 128 3 5 = mode6 1 1 4 128 128 (128 - 1 - 5) 3
          ∧ mode6 1 1 4 128 128 3 5 = mode6 1 1 4 128 128 (128 - 1 - 3) (128 - 1 - 5)
          ∧ mode6 1 1 4 128 128 3 5 = mode6 1 1 4 128 128 5 (128 - 1 - 3))) :=
  ⟨⟨by decide, by decide, by decide, by decide⟩,
    c3_symmetry 1 1 4 128 128 3 5 (by decide) (by decide) (by decide) (by decide)⟩

/-! ## C1: range of the indexer results -/

/-- The in-range property 0 ≤ v < paletteLen the claim asserts of indexer
results. -/
def idxOK (p v : Int) : Prop := 0 ≤ v ∧ v < p

theorem mode18_range (seed b : Nat) {p : Int} (W H x y : Int) (hp : 4 ≤ p) :
    idxOK p (mode18 seed b p W H x y) := by
  have hp0 : (0 : Int) < p := by omega
  simp only [mode18, idxOK]
  split_ifs with h1 h2 <;>
    first
      | exact jsFloorMod_bounds _ hp0
      | exact ⟨by omega, by omega⟩

theorem mode19_range (seed b : Nat) {p : Int} (W H x y : Int) (hp : 4 ≤ p) :
    idxOK p (mode19 seed b p W H x y) := by
  have hp0 : (0 : Int) < p := by omega
  simp only [mode19, idxOK]
  split_ifs with h1 h2 <;>
    first
      | exact jsFloorMod_bounds _ hp0
      | exact ⟨by omega, by omega⟩

theorem mode24_range (seed b : Nat) {p : Int} (W H x y : Int) (hp : 4 ≤ p) :
    idxOK p (mode24 seed b p W H x y) := by
  have hp0 : (0 : Int) < p := by omega
  simp only [mode24, idxOK]
  split_ifs with h1
  · have h2 : seed &&& 2 ≤ 2 := Nat.and_le_right
    constructor
    · positivity
    · omega
  · exact jsFloorMod_bounds _ hp0

theorem mode26_range (seed b : Nat) {p : Int} (W H x y : Int) (hp : 4 ≤ p) :
    idxOK p (mode26 seed b p W H x y) := by
  have hp0 : (0 : Int) < p := by omega
  simp only [mode26, idxOK]
  split_ifs with h1 h2 <;>
    first
      | exact tmod_natCast_bounds _ hp0
      | exact ⟨by omega, by omega⟩

theorem xor3_bit_range (n : Nat) {p : Int} (hp : 4 ≤ p) :
    0 ≤ ((3 ^^^ n % 2 : Nat) : Int) ∧ ((3 ^^^ n % 2 : Nat) : Int) < p := by
  have e0 : (3 ^^^ 0 : Nat) = 3 := by decide
  have e1 : (3 ^^^ 1 : Nat) = 2 := by decide
  rcases Nat.mod_two_eq_zero_or_one n with h | h <;> rw [h] <;> simp only [e0, e1] <;>
    exact ⟨by omega, by omega⟩

theorem mode27_range (seed b : Nat) {p : Int} (W H x y : Int) (hp : 4 ≤ p) :
    idxOK p (mode27 seed b p W H x y) := by
  simp only [mode27, idxOK]
  split_ifs with h1 h2
  · exact ⟨by omega, by omega⟩
  · exact ⟨by omega, by omega⟩
  · exact xor3_bit_range _ hp

theorem mode29_range (seed b : Nat) {p : Int} (W H x y : Int) (hp : 4 ≤ p) :
    idxOK p (mode29 seed b p W H x y) := by
  simp only [mode29, idxOK]
  have e1 : (1 ^^^ 3 : Nat) = 2 := by decide
  have e2 : (2 ^^^ 3 : Nat) = 1 := by decide
  split_ifs <;> exact ⟨by omega, by omega⟩

/-- C1 counterexample: the mode-18 weave indexer returns the fixed palette
anchor 2 without reduction; with paletteLen = 1 (blockSize 1, seed 0,
W = H = 128) the point (1, 0) lies on a strand and the returned index 2
violates index < paletteLen. -/
theorem c1_counterexample :
    mode18 0 1 1 128 128 1 0 = 2 ∧ ¬(mode18 0 1 1 128 128 1 0 < 1) := by
  constructor
  · decide
  · decide

/-- C1 (amended): for the integer-arithmetic pattern modes (0-6, 9-12, 15,
18-22, 24, 26, 27, 29, 30), any uint32 seed, any block size from
BLOCK_OPTIONS, any paletteLen at least 4 (the anchor modes 18, 19, 24, 26,
27, 29 return fixed indices up to 3), W = H = 128, and every integer pair
(x, y) in [-2W, 2W) x [-2H, 2H) including negative coordinates, the
returned index satisfies 0 ≤ index < paletteLen.  The remaining modes
(7, 8, 13, 14, 16, 17, 23, 25, 28, 31) compute through floating-point
transcendentals; of these, mode 17 (value-noise) can in addition return a
negative index at negative coordinates, which is why paletteLen-many bins
alone do not make the original claim true. -/
theorem c1_indexer_range (seed blockSize : Nat) (p x y : Int)
    (_hseed : seed < M32) (_hb : blockSize ∈ BLOCK_OPTIONS) (hp : 4 ≤ p)
    (_hx : -256 ≤ x ∧ x < 256) (_hy : -256 ≤ y ∧ y < 256) :
    idxOK p (mode0 seed blockSize p 128 128 x y)
    ∧ idxOK p (mode1 seed blockSize p 128 128 x y)
    ∧ idxOK p (mode2 seed blockSize p 128 128 x y)
    ∧ idxOK p (mode3 seed blockSize p 128 128 x y)
    ∧ idxOK p (mode4 seed blockSize p 128 128 x y)
    ∧ idxOK p (mode5 seed blockSize p 128 128 x y)
    ∧ idxOK p (mode6 seed blockSize p 128 128 x y)
    ∧ idxOK p (mode9 seed blockSize p 128 128 x y)
    ∧ idxOK p (mode10 seed blockSize p 128 128 x y)
    ∧ idxOK p (mode11 seed blockSize p 128 128 x y)
    ∧ idxOK p (mode12 seed blockSize p 128 128 x y)
    ∧ idxOK p (mode15 seed blockSize p 128 128 x y)
    ∧ idxOK p (mode18 seed blockSize p 128 128 x y)
    ∧ idxOK p (mode19 seed blockSize p 128 128 x y)
    ∧ idxOK p (mode20 seed blockSize p 128 128 x y)
    ∧ idxOK p (mode21 seed blockSize p 128 128 x y)
    ∧ idxOK p (mode22 seed blockSize p 128 128 x y)
    ∧ idxOK p (mode24 seed blockSize p 128 128 x y)
    ∧ idxOK p (mode26 seed blockSize p 128 128 x y)
    ∧ idxOK p (mode27 seed blockSize p 128 128 x y)
    ∧ idxOK p (mode29 seed blockSize p 128 128 x y)
    ∧ idxOK p (mode30 seed blockSize p 128 128 x y) := by
  have hp0 : (0 : Int) < p := by omega
  refine ⟨tmod_natCast_bounds _ hp0, tmod_natCast_bounds _ hp0, tmod_natCast_bounds _ hp0,
    tmod_natCast_bounds _ hp0, tmod_natCast_bounds _ hp0, tmod_natCast_bounds _ hp0,
    tmod_natCast_bounds _ hp0, jsFloorMod_bounds _ hp0, jsFloorMod_bounds _ hp0,
    jsFloorMod_bounds _ hp0, jsFloorMod_bounds _ hp0, jsFloorMod_bounds _ hp0,
    mode18_range seed blockSize 128 128 x y hp, mode19_range seed blockSize 128 128 x y hp,
    tmod_natCast_bounds _ hp0, jsFloorMod_bounds _ hp0, jsFloorMod_bounds _ hp0,
    mode24_range seed blockSize 128 128 x y hp, mode26_range seed blockSize 128 128 x y hp,
    mode27_range seed blockSize 128 128 x y hp, mode29_range seed blockSize 128 128 x y hp,
    jsFloorMod_bounds _ hp0⟩

theorem c1_indexer_range_witness :
    ((0 : Nat) < M32 ∧ (1 : Nat) ∈ BLOCK_OPTIONS ∧ (4 : Int) ≤ 4
      ∧ (-256 ≤ (0 : Int) ∧ (0 : Int) < 256))
    ∧ (idxOK 4 (mode0 0 1 4 128 128 0 0)
      ∧ idxOK 4 (mode1 0 1 4 128 128 0 0)
      ∧ idxOK 4 (mode2 0 1 4 128 128 0 0)
      ∧ idxOK 4 (mode3 0 1 4 128 128 0 0)
      ∧ idxOK 4 (mode4 0 1 4 128 128 0 0)
      ∧ idxOK 4 (mode5 0 1 4 128 128 0 0)
      ∧ idxOK 4 (mode6 0 1 4 128 128 0 0)
      ∧ idxOK 4 (mode9 0 1 4 128 128 0 0)
      ∧ idxOK 4 (mode10 0 1 4 128 128 0 0)
      ∧ idxOK 4 (mode11 0 1 4 128 128 0 0)
      ∧ idxOK 4 (mode12 0 1 4 128 128 0 0)
      ∧ idxOK 4 (mode15 0 1 4 128 128 0 0)
      ∧ idxOK 4 (mode18 0 1 4 128 128 0 0)
      ∧ idxOK 4 (mode19 0 1 4 128 128 0 0)
      ∧ idxOK 4 (mode20 0 1 4 128 128 0 0)
      ∧ idxOK 4 (mode21 0 1 4 128 128 0 0)
      ∧ idxOK 4 (mode22 0 1 4 128 128 0 0)
      ∧ idxOK 4 (mode24 0 1 4 128 128 0 0)
      ∧ idxOK 4 (mode26 0 1 4 128 128 0 0)
      ∧ idxOK 4 (mode27 0 1 4 128 128 0 0)
      ∧ idxOK 4 (mode29 0 1 4 128 128 0 0)
      ∧ idxOK 4 (mode30 0 1 4 128 128 0 0)) :=
  ⟨⟨by decide, by decide, by decide, by decide, by decide⟩,
    c1_indexer_range 0 1 4 0 0 (by decide) (by decide) (by decide)
      (by decide) (by decide)⟩

end CyberTapestry
